import Mathlib

/-!
# Verification of the media-mcp multi-source metadata resolution core

Shallow embedding of the book-metadata merge engine, fuzzy matcher, rate
limiter, SQLite-backed cache, book lookup orchestrator and batch tool of the
`media-mcp` repository, together with proofs settling the frozen claims about
the natural-language specification.

Modelling conventions:
* JavaScript `undefined` and `null` on optional fields are both modelled as
  `Option.none`; the code under verification always treats them alike
  (`!== undefined && !== null`).
* JavaScript truthiness on strings (`""` falsy) and numbers (`0` falsy) is
  modelled explicitly by the `truthy*` helpers.
* Wall-clock reads (`Date.now()`, `new Date().toISOString()`) are passed in as
  explicit parameters, the standard shallow embedding of ambient time.
* Floating point numbers that only ever arise from integer arithmetic and one
  division are modelled as `ℚ`.
-/

namespace Media

/-- JS whitespace test (`\s`), restricted to the ASCII range. -/
def isJsSpace (c : Char) : Bool :=
  c = ' ' ∨ c = '\t' ∨ c = '\n' ∨ c = '\r' ∨ c = Char.ofNat 11 ∨ c = Char.ofNat 12

/-- JS word-character test (`\w`): ASCII letters, digits, underscore. -/
def isWordChar (c : Char) : Bool :=
  ('a' ≤ c ∧ c ≤ 'z') ∨ ('A' ≤ c ∧ c ≤ 'Z') ∨ ('0' ≤ c ∧ c ≤ '9') ∨ c = '_'

/-- State machine for `replace(/\s+/g, ' ')`: emit one space at the start of
each maximal whitespace run (`inRun` records whether the previous character was
whitespace). -/
def collapseWsGo (inRun : Bool) : List Char → List Char
  | [] => []
  | c :: rest =>
    if isJsSpace c then
      if inRun then collapseWsGo true rest
      else ' ' :: collapseWsGo true rest
    else c :: collapseWsGo false rest

/-- Collapse every maximal run of JS whitespace into a single space
(the `replace(/\s+/g, ' ')` step of `normalize`). -/
def collapseWs (l : List Char) : List Char :=
  collapseWsGo false l

/-- JS `String.prototype.trim`: drop whitespace from both ends. -/
def jsTrimChars (l : List Char) : List Char :=
  ((l.dropWhile isJsSpace).reverse.dropWhile isJsSpace).reverse

/-- JS `String.prototype.trim` on strings. -/
def jsTrim (s : String) : String := String.mk (jsTrimChars s.data)

/-- `normalize(str)` from `fuzzy-match`: lowercase, strip all characters that
are neither word characters nor whitespace, collapse whitespace runs to single
spaces, trim. -/
def normalize (s : String) : String :=
  String.mk (jsTrimChars (collapseWs
    ((s.data.map Char.toLower).filter (fun c => isWordChar c ∨ isJsSpace c))))

/-- One row-update of the Levenshtein dynamic-programming table: given the
previous row (indexed by prefixes of `a`) and the next character `bc` of `b`,
produce the next row.  `left` carries the entry just computed in the current
row (`matrix[i][j-1]`). -/
def levRowGo (bc : Char) : List Char → List Nat → Nat → List Nat
  | [], _, _ => []
  | _, [], _ => []
  | ac :: arest, diag :: prest, left =>
    let up := prest.headD 0
    let v := if bc = ac then diag else 1 + min diag (min left up)
    v :: levRowGo bc arest prest v

/-- Next full row of the DP table (`matrix[i][0] = i` is `prev[0] + 1`). -/
def levNextRow (bc : Char) (a : List Char) (prev : List Nat) : List Nat :=
  let first := prev.headD 0 + 1
  first :: levRowGo bc a prev first

/-- `levenshteinDistance(a, b)`: classic full-table dynamic programming edit
distance, computed row by row over the characters of `b` exactly as the
source's nested loops do; the answer is `matrix[b.length][a.length]`, the last
entry of the final row. -/
def levenshteinDistance (a b : List Char) : Nat :=
  (b.foldl (fun row bc => levNextRow bc a row) (List.range (a.length + 1))).getLastD 0

/-- `stringSimilarity(a, b)` from `fuzzy-match`, with the floating-point ratio
modelled in `ℚ`. -/
def stringSimilarity (a b : String) : ℚ :=
  let aNorm := normalize a
  let bNorm := normalize b
  if aNorm = bNorm then 1
  else if aNorm.length = 0 ∨ bNorm.length = 0 then 0
  else
    let distance : ℕ := levenshteinDistance aNorm.data bNorm.data
    let maxLength : ℕ := max aNorm.length bNorm.length
    1 - (distance : ℚ) / (maxLength : ℚ)

/-! ## Association-list model of a JS `Map` -/

/-- `Map.prototype.get`: first binding of the key, if any. -/
def mapGet (l : List (String × β)) (k : String) : Option β :=
  (l.find? (fun p => p.1 = k)).map (·.2)

/-- `Map.prototype.set`: overwrite the existing binding in place, else append. -/
def mapSet : List (String × β) → String → β → List (String × β)
  | [], k, v => [(k, v)]
  | p :: rest, k, v => if p.1 = k then (k, v) :: rest else p :: mapSet rest k v

/-! ## Rate limiter (`utils/rate-limiter.ts`)

`Date.now()` is passed explicitly as `now` (milliseconds, `ℕ`). -/

structure RateLimitConfig where
  requestsPerWindow : Nat
  windowMs : Nat
deriving DecidableEq

structure RateLimitState where
  requests : Nat
  windowStart : Nat
  backoffUntil : Nat
deriving DecidableEq

structure RateLimiter where
  states : List (String × RateLimitState)
  configs : List (String × RateLimitConfig)
deriving DecidableEq

/-- `RateLimiter.configure(source, config)`: store the config and reset the
per-source state. -/
def RateLimiter.configure (rl : RateLimiter) (now : Nat) (source : String)
    (config : RateLimitConfig) : RateLimiter :=
  { configs := mapSet rl.configs source config,
    states := mapSet rl.states source
      { requests := 0, windowStart := now, backoffUntil := 0 } }

/-- `RateLimiter.triggerBackoff(source, attempt)`: when the source has state,
overwrite `backoffUntil` with `now + min(2^attempt * 1000, 60000)` and return
that duration; with no state, return 0 and change nothing. -/
def RateLimiter.triggerBackoff (rl : RateLimiter) (now : Nat) (source : String)
    (attempt : Nat) : Nat × RateLimiter :=
  match mapGet rl.states source with
  | none => (0, rl)
  | some state =>
    let backoffMs := min (2 ^ attempt * 1000) 60000
    let newStates := mapSet rl.states source { state with backoffUntil := now + backoffMs }
    (backoffMs, { rl with states := newStates })

/-! ## SQLite-backed cache (`cache/sqlite-cache.ts`)

The JSON serialize/deserialize round trip is modelled as lossless (the value is
stored as-is), so `get`'s parse-error self-healing branch is unreachable in the
model.  `INSERT OR REPLACE` is modelled as delete-conflicting-row-then-append.
Times are milliseconds (`ℤ`). -/

structure CacheEntry (α : Type) where
  key : String
  value : α
  source : String
  created_at : Int
  expires_at : Int
  hit_count : Nat
deriving DecidableEq

structure SQLiteCache (α : Type) where
  enabled : Bool
  defaultTTLHours : Int
  rows : List (CacheEntry α)
deriving DecidableEq

/-- `get(key)`: only returns rows with `expires_at > now`; increments the
stored `hit_count` and reports the incremented count on the returned entry. -/
def SQLiteCache.get (c : SQLiteCache α) (now : Int) (key : String) :
    Option (CacheEntry α) × SQLiteCache α :=
  if c.enabled = false then (none, c)
  else
    match c.rows.find? (fun r => r.key = key ∧ r.expires_at > now) with
    | none => (none, c)
    | some row =>
      (some { row with hit_count := row.hit_count + 1 },
       { c with rows := c.rows.map (fun r =>
           if r.key = key then { r with hit_count := r.hit_count + 1 } else r) })

/-- `getStale(key)`: returns the row regardless of expiry together with a
staleness flag (`expires_at <= now`); issues no write. -/
def SQLiteCache.getStale (c : SQLiteCache α) (now : Int) (key : String) :
    Option (CacheEntry α × Bool) × SQLiteCache α :=
  if c.enabled = false then (none, c)
  else
    match c.rows.find? (fun r => r.key = key) with
    | none => (none, c)
    | some row => (some (row, decide (row.expires_at ≤ now)), c)

/-- `set(key, value, source, ttlHours?)`: upsert with
`expires_at = now + (ttlHours ?? defaultTTLHours) * 3600000` and a fresh
`hit_count` of 0. -/
def SQLiteCache.set (c : SQLiteCache α) (now : Int) (key : String) (value : α)
    (source : String) (ttlHours : Option Int) : SQLiteCache α :=
  if c.enabled = false then c
  else
    let ttl := ttlHours.getD c.defaultTTLHours * 60 * 60 * 1000
    let row : CacheEntry α :=
      { key := key, value := value, source := source, created_at := now,
        expires_at := now + ttl, hit_count := 0 }
    { c with rows := c.rows.filter (fun r => ¬(r.key = key)) ++ [row] }

/-- `cleanup()`: `DELETE FROM cache WHERE expires_at < now`, returning the
number of deleted rows. -/
def SQLiteCache.cleanup (c : SQLiteCache α) (now : Int) : Nat × SQLiteCache α :=
  if c.enabled = false then (0, c)
  else ((c.rows.filter (fun r => r.expires_at < now)).length,
        { c with rows := c.rows.filter (fun r => ¬(r.expires_at < now)) })

/-- Stored hit count of the row at `key` (database-level observation). -/
def SQLiteCache.hitCountOf (c : SQLiteCache α) (key : String) : Option Nat :=
  (c.rows.find? (fun r => r.key = key)).map (·.hit_count)

/-- Iterated `getStale`, threading the cache state. -/
def SQLiteCache.iterGetStale (c : SQLiteCache α) (now : Int) (key : String) :
    Nat → SQLiteCache α
  | 0 => c
  | n + 1 => ((c.iterGetStale now key n).getStale now key).2

/-! ## Book data model (`types/book.ts`)

Optional (`undefined`) and nullable fields are both `Option`; numeric rating
scores and series positions are ℚ (they can be fractional in JS). -/

inductive BookSource where
  | open_library | google_books | goodreads | hardcover
deriving DecidableEq

structure Rating where
  score : ℚ
  count : Nat
deriving DecidableEq

/-- `Partial<BookSeries>` as it appears on `PartialBookData.series`. -/
structure PartialSeries where
  name : Option String
  position : Option ℚ
  total_books : Option ℚ
deriving DecidableEq

structure PartialBookData where
  title : Option String := none
  author : Option String := none
  authors : Option (List String) := none
  isbn_10 : Option String := none
  isbn_13 : Option String := none
  genres : Option (List String) := none
  subjects : Option (List String) := none
  page_count : Option Int := none
  publish_date : Option String := none
  publisher : Option String := none
  description : Option String := none
  cover_url : Option String := none
  series : Option PartialSeries := none
  rating : Option Rating := none
  identifier : Option String := none
  source_url : Option String := none
  source : BookSource
deriving DecidableEq

structure BookSeries where
  name : Option String
  position : Option ℚ
  total_books : Option ℚ
deriving DecidableEq

structure BookRatings where
  goodreads : Option Rating := none
  open_library : Option Rating := none
  google_books : Option Rating := none
deriving DecidableEq

structure BookIdentifiers where
  open_library : Option String
  goodreads : Option String
  google_books : Option String
  hardcover : Option String
deriving DecidableEq

/-- Per-source URL map of the canonical record.  Note: the schema and the
merge code only record URLs for these three sources; there is no hardcover
entry. -/
structure BookSourceUrls where
  open_library : Option String
  goodreads : Option String
  google_books : Option String
deriving DecidableEq

inductive ConfidenceLevel where
  | high | medium | low
deriving DecidableEq

structure Meta where
  sources_queried : List BookSource
  sources_failed : Option (List BookSource)
  primary_source : BookSource
  confidence : ConfidenceLevel
  cached : Bool
  timestamp : String
deriving DecidableEq

structure BookResult where
  title : String
  author : String
  authors : List String
  isbn_10 : Option String
  isbn_13 : Option String
  genres : List String
  subjects : List String
  page_count : Option Int
  publish_date : Option String
  publisher : Option String
  description : Option String
  cover_url : Option String
  series : BookSeries
  ratings : BookRatings
  identifiers : BookIdentifiers
  source_urls : BookSourceUrls
  meta : Meta
deriving DecidableEq

/-! ## JS truthiness helpers -/

/-- Truthiness of an optional string: present and non-empty. -/
def truthyStr : Option String → Bool
  | some s => s ≠ ""
  | none => false

/-- Truthiness of an optional number: present and non-zero. -/
def truthyInt : Option Int → Bool
  | some n => n ≠ 0
  | none => false

/-- Truthiness of an optional rational: present and non-zero. -/
def truthyRat : Option ℚ → Bool
  | some q => q ≠ 0
  | none => false

/-- JS `x || d` for an optional string `x` and string default `d`. -/
def jsOrStr (x : Option String) (d : String) : String :=
  match x with
  | some s => if s = "" then d else s
  | none => d

/-! ## Merge engine (`utils/merge-results.ts`) -/

/-- `SOURCE_PRIORITY`: higher is more trusted. -/
def SOURCE_PRIORITY : BookSource → Nat
  | .goodreads => 4
  | .open_library => 3
  | .google_books => 2
  | .hardcover => 1

/-- The merge-relevant field names that key `FIELD_SOURCE_PREFERENCE` and
`selectBestValue` (the TS code indexes records by field-name strings; the
getter function is passed separately at each Lean call site). -/
inductive MergeField where
  | title | author | isbn_10 | isbn_13 | page_count | publish_date
  | publisher | description | cover_url | genres | series | rating
deriving DecidableEq

/-- `FIELD_SOURCE_PREFERENCE`: per-field ordered source preference; fields
absent from the TS record map to `[]` (the `|| []` in `selectBestValue`). -/
def FIELD_SOURCE_PREFERENCE : MergeField → List BookSource
  | .rating => [.goodreads, .open_library, .google_books]
  | .genres => [.goodreads, .google_books, .open_library]
  | .series => [.goodreads, .hardcover, .open_library]
  | .description => [.google_books, .open_library, .goodreads]
  | .cover_url => [.open_library, .google_books, .goodreads]
  | .page_count => [.open_library, .google_books, .goodreads]
  | .isbn_10 => [.open_library, .google_books]
  | .isbn_13 => [.open_library, .google_books]
  | _ => []

/-- First phase of `selectBestValue`: walk the preference list; for each
preferred source take the first record from that source and use its field if
it is neither `undefined` nor `null`. -/
def prefLoop (results : List PartialBookData) (field : PartialBookData → Option α) :
    List BookSource → Option α
  | [] => none
  | s :: rest =>
    match results.find? (fun r => r.source = s) with
    | some r =>
      match field r with
      | some v => some v
      | none => prefLoop results field rest
    | none => prefLoop results field rest

/-- Second phase of `selectBestValue`: first record (in input order) whose
field is neither `undefined` nor `null`. -/
def firstAvail (field : PartialBookData → Option α) : List PartialBookData → Option α
  | [] => none
  | r :: rest =>
    match field r with
    | some v => some v
    | none => firstAvail field rest

/-- `selectBestValue(results, field, default)` without the default applied:
preference walk, then first available value. -/
def selectBestValue (results : List PartialBookData) (field : MergeField)
    (get : PartialBookData → Option α) : Option α :=
  (prefLoop results get (FIELD_SOURCE_PREFERENCE field)).orElse
    (fun _ => firstAvail get results)

/-- `mergeArrays`: concatenation with case-insensitive (lowercased, trimmed)
first-seen de-duplication. -/
def mergeArraysGo (seen : List String) : List String → List String
  | [] => []
  | item :: rest =>
    let normalized := jsTrim (String.mk (item.data.map Char.toLower))
    if seen.contains normalized then mergeArraysGo seen rest
    else item :: mergeArraysGo (normalized :: seen) rest

def mergeArrays (arrays : List (List String)) : List String :=
  mergeArraysGo [] arrays.flatten

/-- Trailing loop of `selectLongestDescription`: longest truthy description. -/
def longestDesc : List PartialBookData → Option String × Nat → Option String × Nat
  | [], acc => acc
  | r :: rest, (best, bestLength) =>
    match r.description with
    | some d => if d ≠ "" ∧ d.length > bestLength then longestDesc rest (some d, d.length)
                else longestDesc rest (best, bestLength)
    | none => longestDesc rest (best, bestLength)

/-- `selectLongestDescription`: a Google Books description longer than 100
characters wins outright; otherwise the longest description of any source. -/
def selectLongestDescription (results : List PartialBookData) : Option String :=
  let fromGoogle :=
    match results.find? (fun r => r.source = BookSource.google_books) with
    | some r =>
      match r.description with
      | some d => if d ≠ "" ∧ d.length > 100 then some d else none
      | none => none
    | none => none
  match fromGoogle with
  | some d => some d
  | none => (longestDesc results (none, 0)).1

/-- Fall-through loop of `selectBestCover`: first truthy cover URL. -/
def firstTruthyCover : List PartialBookData → Option String
  | [] => none
  | r :: rest => if truthyStr r.cover_url then r.cover_url else firstTruthyCover rest

/-- `selectBestCover`: Open Library first, then Google Books, then anything. -/
def selectBestCover (results : List PartialBookData) : Option String :=
  match results.find? (fun r => r.source = BookSource.open_library) with
  | some r =>
    if truthyStr r.cover_url then r.cover_url
    else
      match results.find? (fun r => r.source = BookSource.google_books) with
      | some g => if truthyStr g.cover_url then g.cover_url else firstTruthyCover results
      | none => firstTruthyCover results
  | none =>
    match results.find? (fun r => r.source = BookSource.google_books) with
    | some g => if truthyStr g.cover_url then g.cover_url else firstTruthyCover results
    | none => firstTruthyCover results

/-- Truthiness of a partial record's `series?.name`. -/
def truthySeriesName (s : Option PartialSeries) : Bool :=
  match s with
  | some ps => truthyStr ps.name
  | none => false

/-- Fall-through loop of `mergeSeries`: first record with a truthy series
name. -/
def firstSeries : List PartialBookData → Option PartialSeries
  | [] => none
  | r :: rest => if truthySeriesName r.series then r.series else firstSeries rest

/-- `mergeSeries`: Goodreads' series block if it has a truthy name, else the
first record with one, else the all-null block. -/
def mergeSeries (results : List PartialBookData) : BookSeries :=
  let pick :=
    match results.find? (fun r => r.source = BookSource.goodreads) with
    | some gr => if truthySeriesName gr.series then gr.series else firstSeries results
    | none => firstSeries results
  match pick with
  | some ps => { name := ps.name, position := ps.position, total_books := ps.total_books }
  | none => { name := none, position := none, total_books := none }

/-- `mergeRatings`: collect each record's rating into the per-source slot
(hardcover has no slot and is dropped by the TS `switch`). -/
def mergeRatings : List PartialBookData → BookRatings → BookRatings
  | [], acc => acc
  | r :: rest, acc =>
    match r.rating with
    | some rating =>
      match r.source with
      | .goodreads => mergeRatings rest { acc with goodreads := some rating }
      | .open_library => mergeRatings rest { acc with open_library := some rating }
      | .google_books => mergeRatings rest { acc with google_books := some rating }
      | .hardcover => mergeRatings rest acc
    | none => mergeRatings rest acc

/-- `findIdentifier(results, source)`. -/
def findIdentifier (results : List PartialBookData) (source : BookSource) : Option String :=
  (results.find? (fun r => r.source = source)).bind (·.identifier)

/-- `findSourceUrl(results, source)`. -/
def findSourceUrl (results : List PartialBookData) (source : BookSource) : Option String :=
  (results.find? (fun r => r.source = source)).bind (·.source_url)

/-- Stable insertion (descending by source priority, ties keep input order);
`insertByPriority` places a record before the first strictly-lower-or-equal
priority only when strictly greater, i.e. before the first record it strictly
beats, matching a stable JS `sort` with comparator `priority(b) - priority(a)`. -/
def insertByPriority (a : PartialBookData) : List PartialBookData → List PartialBookData
  | [] => [a]
  | b :: rest =>
    if SOURCE_PRIORITY a.source ≥ SOURCE_PRIORITY b.source then a :: b :: rest
    else b :: insertByPriority a rest

/-- `[...results].sort((a, b) => priority(b) - priority(a))` as a stable sort. -/
def sortByPriority (results : List PartialBookData) : List PartialBookData :=
  results.foldr insertByPriority []

/-- `calculateConfidence(result, sourceCount, failedCount)`: the additive
score, using JS truthiness on every field test, mapped to a tier. -/
def calculateConfidence (result : BookResult) (sourceCount failedCount : Nat) :
    ConfidenceLevel :=
  let score : Int :=
    (sourceCount : Int) * 15 - (failedCount : Int) * 10
    + (if result.title ≠ "" then 10 else 0)
    + (if result.author ≠ "" ∧ result.author ≠ "Unknown" then 10 else 0)
    + (if truthyStr result.isbn_10 ∨ truthyStr result.isbn_13 then 15 else 0)
    + (if truthyStr result.cover_url then 5 else 0)
    + (if truthyStr result.description then 10 else 0)
    + (if truthyInt result.page_count then 5 else 0)
    + (if result.genres.length > 0 then 5 else 0)
    + (if truthyStr result.series.name then 10 else 0)
    + (if result.ratings.goodreads.isSome ∨ result.ratings.open_library.isSome
          ∨ result.ratings.google_books.isSome then 10 else 0)
    + (if sourceCount ≥ 2 then 10 else 0)
    + (if sourceCount ≥ 3 then 10 else 0)
  if score ≥ 70 then .high
  else if score ≥ 40 then .medium
  else .low

/-- `mergeBookResults(results, sourcesQueried, sourcesFailed)`; `none` models
the thrown `Error` on an empty input list.  `timestamp` stands for
`new Date().toISOString()`. -/
def mergeBookResults (results : List PartialBookData) (sourcesQueried : List BookSource)
    (sourcesFailed : List BookSource) (timestamp : String) : Option BookResult :=
  match sortByPriority results with
  | [] => none
  | primary :: _ =>
    let merged : BookResult :=
      { title := (selectBestValue results .title (·.title)).getD (jsOrStr primary.title ""),
        author := (selectBestValue results .author (·.author)).getD
          (jsOrStr primary.author "Unknown"),
        authors := mergeArrays (results.filterMap (·.authors)),
        isbn_10 := selectBestValue results .isbn_10 (·.isbn_10),
        isbn_13 := selectBestValue results .isbn_13 (·.isbn_13),
        genres := mergeArrays (results.filterMap (·.genres)),
        subjects := mergeArrays (results.filterMap (·.subjects)),
        page_count := selectBestValue results .page_count (·.page_count),
        publish_date := selectBestValue results .publish_date (·.publish_date),
        publisher := selectBestValue results .publisher (·.publisher),
        description := selectLongestDescription results,
        cover_url := selectBestCover results,
        series := mergeSeries results,
        ratings := mergeRatings results {},
        identifiers :=
          { open_library := findIdentifier results .open_library,
            goodreads := findIdentifier results .goodreads,
            google_books := findIdentifier results .google_books,
            hardcover := findIdentifier results .hardcover },
        source_urls :=
          { open_library := findSourceUrl results .open_library,
            goodreads := findSourceUrl results .goodreads,
            google_books := findSourceUrl results .google_books },
        meta :=
          { sources_queried := sourcesQueried,
            sources_failed := if sourcesFailed.length > 0 then some sourcesFailed else none,
            primary_source := primary.source,
            confidence := .low,
            cached := false,
            timestamp := timestamp } }
    some { merged with meta :=
      { merged.meta with
          confidence := calculateConfidence merged results.length sourcesFailed.length } }

/-! ## Mini regex engine for `extractSeriesFromTitle` (`utils/fuzzy-match.ts`)

A CPS backtracking matcher faithful to the JS engine's semantics over the
constructs the seven series patterns use: single-character classes, lazy
one-or-more over a class (`(.+?)`), greedy star/plus over a class
(`\s*`, `\d+`), greedy option, sequencing and capturing groups.  All patterns
are anchored (`^...$`). -/

inductive RE where
  | eps : RE
  | cls : (Char → Bool) → RE
  | lazyPlus : (Char → Bool) → RE
  | star : (Char → Bool) → RE
  | plus : (Char → Bool) → RE
  | seq : RE → RE → RE
  | opt : RE → RE
  | grp : RE → RE

/-- Lazy `+` over a class: consume one matching character, try the
continuation, consume another on failure. -/
def lazyPlusGo (p : Char → Bool) (k : List Char → Option γ) : List Char → Option γ
  | [] => none
  | c :: rest =>
    if p c then (k rest).orElse (fun _ => lazyPlusGo p k rest) else none

/-- Greedy backtracking over a class run: try the continuation after `n`
consumed characters, then `n - 1`, ... down to `lo`. -/
def greedyGo (k : List Char → Option γ) (s : List Char) (lo : Nat) : Nat → Option γ
  | 0 => if lo = 0 then k s else none
  | n + 1 =>
    if n + 1 < lo then none
    else (k (s.drop (n + 1))).orElse (fun _ => greedyGo k s lo n)

/-- The matcher: `reMatch r s caps k` tries to match `r` at the front of `s`,
threading the capture list, and calls `k` on the rest. -/
def reMatch : RE → List Char → List String → (List Char → List String → Option (List String)) →
    Option (List String)
  | .eps, s, caps, k => k s caps
  | .cls p, s, caps, k =>
    match s with
    | [] => none
    | c :: rest => if p c then k rest caps else none
  | .lazyPlus p, s, caps, k => lazyPlusGo p (fun rest => k rest caps) s
  | .star p, s, caps, k => greedyGo (fun rest => k rest caps) s 0 (s.takeWhile p).length
  | .plus p, s, caps, k => greedyGo (fun rest => k rest caps) s 1 (s.takeWhile p).length
  | .seq a b, s, caps, k => reMatch a s caps (fun s2 c2 => reMatch b s2 c2 k)
  | .opt r, s, caps, k => (reMatch r s caps k).orElse (fun _ => k s caps)
  | .grp r, s, caps, k =>
    reMatch r s caps (fun s2 c2 => k s2 (c2 ++ [String.mk (s.take (s.length - s2.length))]))

/-- Anchored match of a whole string, returning the captured groups. -/
def reFullMatch (r : RE) (s : String) : Option (List String) :=
  reMatch r s.data [] (fun rest caps => if rest.isEmpty then some caps else none)

/-- Sequence a list of regexes. -/
def reSeq (l : List RE) : RE := l.foldr .seq .eps

/-- JS `.`: any character but a line terminator. -/
def dotClass (c : Char) : Bool := ¬(c = '\n' ∨ c = '\r')

def isAsciiDigit (c : Char) : Bool := '0' ≤ c ∧ c ≤ '9'

/-- Case-insensitive literal word (for the `/i` patterns). -/
def reLitCI (w : List Char) : RE := reSeq (w.map (fun l => .cls (fun c => c.toLower = l)))

/-- Case-sensitive literal character. -/
def reLit (l : Char) : RE := .cls (fun c => c = l)

/-- `(\d+(?:\.\d+)?)`: the captured series-position number. -/
def reNumGrp : RE :=
  .grp (.seq (.plus isAsciiDigit) (.opt (.seq (reLit '.') (.plus isAsciiDigit))))

/-- `(.+?)` capture. -/
def reLazyGrp : RE := .grp (.lazyPlus dotClass)

/-- `\s*` / `\s+`. -/
def reWs : RE := .star isJsSpace
def reWsPlus : RE := .plus isJsSpace

/-- The seven series patterns of `extractSeriesFromTitle`, in order. -/
def seriesPatterns : List RE :=
  [ -- /^(.+?)\s*\(\s*(.+?)\s*[,#]\s*(\d+(?:\.\d+)?)\s*\)$/
    reSeq [reLazyGrp, reWs, reLit '(', reWs, reLazyGrp, reWs,
           .cls (fun c => c = ',' ∨ c = '#'), reWs, reNumGrp, reWs, reLit ')'],
    -- /^(.+?)\s*\(\s*(.+?)\s+Book\s+(\d+(?:\.\d+)?)\s*\)$/i
    reSeq [reLazyGrp, reWs, reLit '(', reWs, reLazyGrp, reWsPlus,
           reLitCI ['b','o','o','k'], reWsPlus, reNumGrp, reWs, reLit ')'],
    -- /^(.+?):\s*(.+?)\s*#(\d+(?:\.\d+)?)$/
    reSeq [reLazyGrp, reLit ':', reWs, reLazyGrp, reWs, reLit '#', reNumGrp],
    -- /^(.+?)\s*\(\s*Book\s+(\d+(?:\.\d+)?)\s*\)$/i
    reSeq [reLazyGrp, reWs, reLit '(', reWs, reLitCI ['b','o','o','k'], reWsPlus,
           reNumGrp, reWs, reLit ')'],
    -- /^(.+?)\s*#(\d+(?:\.\d+)?)$/
    reSeq [reLazyGrp, reWs, reLit '#', reNumGrp],
    -- /^(.+?),\s*Book\s+(\d+(?:\.\d+)?)$/i
    reSeq [reLazyGrp, reLit ',', reWs, reLitCI ['b','o','o','k'], reWsPlus, reNumGrp],
    -- /^(.+?):\s*(.+?)\s*\(\s*Book\s+(\d+(?:\.\d+)?)\s*\)$/i
    reSeq [reLazyGrp, reLit ':', reWs, reLazyGrp, reWs, reLit '(', reWs,
           reLitCI ['b','o','o','k'], reWsPlus, reNumGrp, reWs, reLit ')'] ]

/-- `parseFloat` on a `\d+(\.\d+)?` match, in ℚ. -/
def parseSeriesNumber (s : String) : ℚ :=
  let intPart := s.data.takeWhile isAsciiDigit
  let rest := s.data.drop intPart.length
  let ip : ℚ := intPart.foldl (fun acc c => acc * 10 + (c.toNat - '0'.toNat : ℕ)) (0 : ℚ)
  match rest with
  | '.' :: fracDigits =>
    let fp : ℚ := fracDigits.foldl (fun acc c => acc * 10 + (c.toNat - '0'.toNat : ℕ)) (0 : ℚ)
    ip + fp / (10 : ℚ) ^ fracDigits.length
  | _ => ip

structure SeriesInfo where
  cleanTitle : String
  seriesName : Option String
  seriesPosition : Option ℚ
deriving DecidableEq

/-- Walk the pattern list, returning on the first match (`match.length` of 4
resp. 3 corresponds to a 3- resp. 2-element capture list). -/
def extractSeriesGo (title : String) : List RE → SeriesInfo
  | [] => { cleanTitle := title, seriesName := none, seriesPosition := none }
  | pat :: rest =>
    match reFullMatch pat title with
    | some [m1, m2, m3] =>
      { cleanTitle := jsTrim m1, seriesName := some (jsTrim m2),
        seriesPosition := some (parseSeriesNumber m3) }
    | some [m1, m2] =>
      { cleanTitle := jsTrim m1, seriesName := none,
        seriesPosition := some (parseSeriesNumber m2) }
    | _ => extractSeriesGo title rest

/-- `extractSeriesFromTitle(title)`. -/
def extractSeriesFromTitle (title : String) : SeriesInfo :=
  extractSeriesGo title seriesPatterns

/-! ## Book lookup orchestrator (`tools/lookup-book.ts`)

The three adapter calls are modelled by an environment `outcome` giving each
source's search result; each search helper appends to `sourcesQueried` and to
either `results` or `sourcesFailed` exactly as the TS helpers do.  The
completion order of the concurrent searches only affects list order, which the
not-found claim does not depend on; the model uses construction order. -/

structure LookupBookInput where
  title : String
  author : Option String := none
  isbn : Option String := none
  sources : Option (List BookSource) := none
deriving DecidableEq

/-- Result of one adapter's search: a record, an ordinary miss (`null`), or a
thrown error (both of the latter add the source to `sourcesFailed`). -/
inductive SearchOutcome where
  | found (r : PartialBookData)
  | noMatch
  | errored
deriving DecidableEq

structure FanOutState where
  sourcesQueried : List BookSource := []
  results : List PartialBookData := []
  sourcesFailed : List BookSource := []
deriving DecidableEq

/-- One conditional search helper (`searchOpenLibrary` etc.): when the source
is requested and its adapter is available, mark it queried and record the
outcome. -/
def searchStep (requested : List BookSource) (available : Bool) (s : BookSource)
    (outcome : BookSource → SearchOutcome) (st : FanOutState) : FanOutState :=
  if requested.contains s ∧ available then
    match outcome s with
    | .found r => { st with sourcesQueried := st.sourcesQueried ++ [s],
                            results := st.results ++ [r] }
    | _ => { st with sourcesQueried := st.sourcesQueried ++ [s],
                     sourcesFailed := st.sourcesFailed ++ [s] }
  else st

/-- The fan-out of `LookupBookTool.execute`: Open Library (always
constructed), Google Books (when configured), Goodreads (when enabled). -/
def fanOut (inp : LookupBookInput) (hasGoogleBooks goodreadsEnabled : Bool)
    (outcome : BookSource → SearchOutcome) : FanOutState :=
  let requested := inp.sources.getD [.open_library, .google_books, .goodreads]
  searchStep requested goodreadsEnabled .goodreads outcome
    (searchStep requested hasGoogleBooks .google_books outcome
      (searchStep requested true .open_library outcome {}))

structure ErrorResponse where
  code : String
  message : String
  retryable : Bool
deriving DecidableEq

/-- The thrown not-found object, message included. -/
def notFoundError (inp : LookupBookInput) : ErrorResponse :=
  { code := "NOT_FOUND",
    message := "No book found matching \"" ++ inp.title ++ "\"" ++
      (match inp.author with
       | some a => if a = "" then "" else " by " ++ a
       | none => ""),
    retryable := false }

/-- The per-record series post-processing loop body of `execute`: when the
record has no truthy series name and the title yields series info, install it
and overwrite the title with the cleaned title. -/
def applySeriesExtraction (inputTitle : String) (r : PartialBookData) : PartialBookData :=
  if truthySeriesName r.series then r
  else
    let si := extractSeriesFromTitle (jsOrStr r.title inputTitle)
    if truthyStr si.seriesName ∨ truthyRat si.seriesPosition then
      { r with
          series := some { name := si.seriesName, position := si.seriesPosition,
                           total_books := none },
          title := some si.cleanTitle }
    else r

/-- Fallback record for the branch `mergeBookResults` can never reach from
`execute` (merging a non-empty list never fails). -/
def defaultBookResult : BookResult :=
  { title := "", author := "", authors := [], isbn_10 := none, isbn_13 := none,
    genres := [], subjects := [], page_count := none, publish_date := none,
    publisher := none, description := none, cover_url := none,
    series := { name := none, position := none, total_books := none },
    ratings := {}, identifiers := ⟨none, none, none, none⟩,
    source_urls := ⟨none, none, none⟩,
    meta := { sources_queried := [], sources_failed := none,
              primary_source := .open_library, confidence := .low,
              cached := false, timestamp := "" } }

/-- `LookupBookTool.execute` after the fan-out: throw `NOT_FOUND` when no
source produced a record, otherwise post-process series info and merge. -/
def lookupBookExecute (inp : LookupBookInput) (hasGoogleBooks goodreadsEnabled : Bool)
    (outcome : BookSource → SearchOutcome) (timestamp : String) :
    Except ErrorResponse BookResult :=
  let st := fanOut inp hasGoogleBooks goodreadsEnabled outcome
  match st.results with
  | [] => .error (notFoundError inp)
  | r :: rest =>
    let processed := (r :: rest).map (applySeriesExtraction inp.title)
    .ok ((mergeBookResults processed st.sourcesQueried st.sourcesFailed timestamp).getD
      defaultBookResult)

/-! ## Batch lookup tool (`tools/generate-frontmatter.ts`, `BatchLookupTool`)

The three per-type tools are modelled as oracle functions with a common
abstract payload type `ρ` (standing for the union
`BookResult | MovieResult | TVResult`); `lookupItem` wraps their success or
thrown error exactly as the TS `try`/`catch` does.  `Promise.all` of one wave
preserves the wave's order, so the sequential wave loop is order-faithful. -/

inductive MediaType where
  | book | movie | tv
deriving DecidableEq

structure BatchItem where
  type : MediaType
  title : String
  author : Option String := none
  isbn : Option String := none
  year : Option Int := none
  tmdb_id : Option Int := none
deriving DecidableEq

/-- Shape of a caught thrown value (`{code?, message?}`). -/
structure BatchError where
  code : Option String := none
  message : Option String := none
deriving DecidableEq

inductive BatchResultEntry (ρ : Type) where
  | success (index : Nat) (type : MediaType) (result : ρ)
  | failure (index : Nat) (type : MediaType) (code : String) (message : String)
deriving DecidableEq

def BatchResultEntry.index : BatchResultEntry ρ → Nat
  | .success i _ _ => i
  | .failure i _ _ _ => i

def BatchResultEntry.isSuccess : BatchResultEntry ρ → Bool
  | .success .. => true
  | .failure .. => false

/-- The three injected lookup tools. -/
structure BatchOracles (ρ : Type) where
  book : BatchItem → Except BatchError ρ
  movie : BatchItem → Except BatchError ρ
  tv : BatchItem → Except BatchError ρ

/-- `BatchLookupTool.lookupItem(item, index)`: dispatch on the item type and
convert a thrown error into a per-item failure entry. -/
def lookupItem (oracles : BatchOracles ρ) (item : BatchItem) (index : Nat) :
    BatchResultEntry ρ :=
  let outcome :=
    match item.type with
    | .book => oracles.book item
    | .movie => oracles.movie item
    | .tv => oracles.tv item
  match outcome with
  | .ok r => .success index item.type r
  | .error e => .failure index item.type (e.code.getD "UNKNOWN_ERROR")
      (e.message.getD "An unknown error occurred")

/-- `batch.map((item, batchIndex) => lookupItem(item, i + batchIndex))`. -/
def mapIdxFrom (f : α → Nat → β) : Nat → List α → List β
  | _, [] => []
  | start, x :: xs => f x start :: mapIdxFrom f (start + 1) xs

/-- The wave loop `for (let i = 0; i < items.length; i += concurrency)`:
process `c` items per iteration; the fuel argument (instantiated with
`items.length`) only serves termination and never runs out for `c ≥ 1`. -/
def processChunks (f : α → Nat → β) (c : Nat) : Nat → Nat → List α → List β
  | 0, _, _ => []
  | _ + 1, _, [] => []
  | fuel + 1, start, l =>
    mapIdxFrom f start (l.take c) ++ processChunks f c fuel (start + c) (l.drop c)

structure BatchLookupOutput (ρ : Type) where
  total : Nat
  successful : Nat
  failed : Nat
  results : List (BatchResultEntry ρ)
  concurrency : Nat

/-- `BatchLookupTool.execute`. -/
def batchExecute (oracles : BatchOracles ρ) (items : List BatchItem)
    (concurrency : Nat) : BatchLookupOutput ρ :=
  let results := processChunks (lookupItem oracles) concurrency items.length 0 items
  { total := items.length,
    successful := (results.filter (·.isSuccess)).length,
    failed := (results.filter (fun r => ¬r.isSuccess)).length,
    results := results,
    concurrency := concurrency }

/-- The waves of the loop: successive `take c` slices. -/
def chunksOf (c : Nat) : Nat → List α → List (List α)
  | 0, _ => []
  | _ + 1, [] => []
  | fuel + 1, l => l.take c :: chunksOf c fuel (l.drop c)

/-- Wave decomposition of a batch input. -/
def wavesOf (c : Nat) (l : List α) : List (List α) := chunksOf c l.length l

/-! ## Spec-side definitions

These follow the wording of the specification claims (not the code) and are
compared against the embedded code above. -/

/-- First `some` in a list of options. -/
def firstSome : List (Option α) → Option α
  | [] => none
  | o :: rest => o.orElse (fun _ => firstSome rest)

/-- Spec-worded field selection (claim C2): the first non-null value found by
walking the field's source-preference list (taking each preferred source's
record), then the first record in input order that has the field. -/
def specFieldValue (results : List PartialBookData) (prefs : List BookSource)
    (field : PartialBookData → Option α) : Option α :=
  (firstSome (prefs.map (fun s => (results.find? (fun r => r.source = s)).bind field))).orElse
    (fun _ => firstSome (results.map field))

/-- Spec-worded tier map (claim C1): `high` iff ≥ 70, `medium` iff ≥ 40. -/
def specTier (score : Int) : ConfidenceLevel :=
  if score ≥ 70 then .high
  else if score ≥ 40 then .medium
  else .low

/-- Spec-worded confidence score exactly as claim C1 words it, reading
"present" as non-null (`isSome`) on nullable fields and non-empty on the
mandatory strings. -/
def specScoreClaim (m : BookResult) (contributing failed : Nat) : Int :=
  (contributing : Int) * 15 - (failed : Int) * 10
  + (if m.title ≠ "" then 10 else 0)
  + (if m.author ≠ "" ∧ m.author ≠ "Unknown" then 10 else 0)
  + (if m.isbn_10.isSome ∨ m.isbn_13.isSome then 15 else 0)
  + (if m.cover_url.isSome then 5 else 0)
  + (if m.description.isSome then 10 else 0)
  + (if m.page_count.isSome then 5 else 0)
  + (if m.genres ≠ [] then 5 else 0)
  + (if m.series.name.isSome then 10 else 0)
  + (if m.ratings.goodreads.isSome ∨ m.ratings.open_library.isSome
        ∨ m.ratings.google_books.isSome then 10 else 0)
  + (if contributing ≥ 2 then 10 else 0)
  + (if contributing ≥ 3 then 10 else 0)

/-- The claim C1 score as amended: the ISBN bonus requires a non-empty ISBN
string and the page-count bonus a non-zero page count (JS truthiness); all
other clauses as in the claim. -/
def specScoreAmended (m : BookResult) (contributing failed : Nat) : Int :=
  (contributing : Int) * 15 - (failed : Int) * 10
  + (if m.title ≠ "" then 10 else 0)
  + (if m.author ≠ "" ∧ m.author ≠ "Unknown" then 10 else 0)
  + (if truthyStr m.isbn_10 ∨ truthyStr m.isbn_13 then 15 else 0)
  + (if m.cover_url.isSome then 5 else 0)
  + (if m.description.isSome then 10 else 0)
  + (if truthyInt m.page_count then 5 else 0)
  + (if m.genres ≠ [] then 5 else 0)
  + (if m.series.name.isSome then 10 else 0)
  + (if m.ratings.goodreads.isSome ∨ m.ratings.open_library.isSome
        ∨ m.ratings.google_books.isSome then 10 else 0)
  + (if contributing ≥ 2 then 10 else 0)
  + (if contributing ≥ 3 then 10 else 0)

/-- Spec-worded per-source collection (claim C9): the value from that source's
contributing record, null when absent. -/
def specCollected (results : List PartialBookData) (s : BookSource)
    (field : PartialBookData → Option String) : Option String :=
  match results.find? (fun r => r.source = s) with
  | some r => field r
  | none => none

/-! ## Concrete instances for witnesses and counterexamples -/

/-- A record whose page count is the JS-falsy `0`: non-null, so "present" in
the claim's reading, but scoring nothing in the code. -/
def c1PageRec : PartialBookData :=
  { title := some "T", author := some "A", page_count := some 0,
    source := .open_library }

def c1wRec : PartialBookData :=
  { title := some "The Hobbit", author := some "Tolkien",
    isbn_13 := some "9780261102217", source := .open_library }

def c2RecOL : PartialBookData :=
  { title := some "Dune", isbn_10 := some "0441013597", source := .open_library }

def c2RecGB : PartialBookData :=
  { title := some "Dune: novel", page_count := some 412,
    publisher := some "Ace", source := .google_books }

def c3Inp : LookupBookInput := { title := "Missing Book", author := some "Nobody" }

def c5Limiter : RateLimiter :=
  RateLimiter.configure { states := [], configs := [] } 0 "api" ⟨30, 60000⟩

def c6RL0 : RateLimiter :=
  RateLimiter.configure { states := [], configs := [] } 0 "api" ⟨30, 60000⟩

def c6RL1 : RateLimiter := (c6RL0.triggerBackoff 0 "api" 10).2

def c6RL2 : RateLimiter := (c6RL1.triggerBackoff 1 "api" 1).2

def c6wRL : RateLimiter :=
  RateLimiter.configure { states := [], configs := [] } 0 "api" ⟨30, 60000⟩

/-- A row expiring exactly at the observation instant. -/
def c7Row : CacheEntry Nat :=
  { key := "k", value := 0, source := "open_library", created_at := 0,
    expires_at := 5, hit_count := 0 }

def c7Cache : SQLiteCache Nat := { enabled := true, defaultTTLHours := 720, rows := [c7Row] }

def c7wCache : SQLiteCache Nat :=
  { enabled := true, defaultTTLHours := 720,
    rows := [{ key := "a", value := 0, source := "s", created_at := 0,
               expires_at := 3, hit_count := 0 },
             { key := "b", value := 1, source := "s", created_at := 0,
               expires_at := 20, hit_count := 2 }] }

def c8Items : List BatchItem :=
  [ { type := .book, title := "A" }, { type := .book, title := "bad" },
    { type := .movie, title := "C" }, { type := .tv, title := "D" },
    { type := .book, title := "E" } ]

/-- Oracles over payload `Nat`; the item titled "bad" fails its lookup. -/
def c8Oracles : BatchOracles Nat :=
  { book := fun it =>
      if it.title = "bad" then .error { code := some "NOT_FOUND", message := some "no match" }
      else .ok 1,
    movie := fun _ => .ok 2,
    tv := fun _ => .ok 3 }

def c9OlRec : PartialBookData :=
  { title := some "T", identifier := some "OL1M",
    source_url := some "https://openlibrary.org/books/OL1M", source := .open_library }

def c9HcRec (u : String) : PartialBookData :=
  { title := some "T", identifier := some "HC1", source_url := some u,
    source := .hardcover }

def c9L1 : List PartialBookData := [c9OlRec, c9HcRec "https://hardcover.app/u1"]

def c9L2 : List PartialBookData := [c9OlRec, c9HcRec "https://hardcover.app/u2"]

def c9wList : List PartialBookData :=
  [ c9OlRec,
    { title := some "T", identifier := some "GR9",
      source_url := some "https://goodreads.com/book/9", source := .goodreads } ]

def c10wCache : SQLiteCache Nat := { enabled := true, defaultTTLHours := 720, rows := [] }

/-! ## Supporting lemmas -/

theorem mapGet_mapSet_same (l : List (String × β)) (k : String) (v : β) :
    mapGet (mapSet l k v) k = some v := by
  induction l with
  | nil => simp [mapSet, mapGet]
  | cons p rest ih =>
    by_cases h : p.1 = k
    · simp [mapSet, h, mapGet]
    · simp only [mapSet, if_neg h, mapGet, List.find?]
      rw [show (decide (p.1 = k)) = false by simp [h]]
      exact ih

/-- What `triggerBackoff` does to a configured source's state. -/
theorem triggerBackoff_state (rl : RateLimiter) (now : Nat) (source : String)
    (k : Nat) (st : RateLimitState) (hst : mapGet rl.states source = some st) :
    (rl.triggerBackoff now source k).1 = min (2 ^ k * 1000) 60000 ∧
    mapGet (rl.triggerBackoff now source k).2.states source =
      some { st with backoffUntil := now + min (2 ^ k * 1000) 60000 } := by
  unfold RateLimiter.triggerBackoff
  rw [hst]
  exact ⟨rfl, mapGet_mapSet_same ..⟩

/-- `find?` commutes with a filter whose predicate is implied. -/
theorem find?_filter_imp (p q : γ → Bool) (h : ∀ x, p x = true → q x = true) :
    ∀ l : List γ, (l.filter q).find? p = l.find? p := by
  intro l
  induction l with
  | nil => rfl
  | cons x rest ih =>
    by_cases hq : q x
    · rw [List.filter_cons_of_pos hq]
      by_cases hp : p x
      · rw [List.find?_cons_of_pos _ hp, List.find?_cons_of_pos _ hp]
      · rw [List.find?_cons_of_neg _ hp, List.find?_cons_of_neg _ hp, ih]
    · rw [List.filter_cons_of_neg hq]
      have hp : ¬p x = true := fun hx => hq (h x hx)
      rw [List.find?_cons_of_neg _ hp, ih]

/-- `find?` over an append whose left part has no match. -/
theorem find?_append_left_none (p : γ → Bool) (l1 l2 : List γ)
    (h : l1.find? p = none) : (l1 ++ l2).find? p = l2.find? p := by
  induction l1 with
  | nil => rfl
  | cons x rest ih =>
    by_cases hp : p x
    · rw [List.find?_cons_of_pos _ hp] at h
      exact absurd h (by simp)
    · rw [List.find?_cons_of_neg _ hp] at h
      rw [List.cons_append, List.find?_cons_of_neg _ hp, ih h]

/-- A filter keeping only elements failing `p` has no `find? p` match. -/
theorem find?_filter_not (p q : γ → Bool) (h : ∀ x, q x = true → p x = false) :
    ∀ l : List γ, (l.filter q).find? p = none := by
  intro l
  induction l with
  | nil => rfl
  | cons x rest ih =>
    by_cases hq : q x
    · rw [List.filter_cons_of_pos hq, List.find?_cons_of_neg _ (by simp [h x hq]), ih]
    · rw [List.filter_cons_of_neg hq, ih]

/-- `getStale` issues no write: the cache component is returned unchanged. -/
theorem getStale_snd (c : SQLiteCache α) (now : Int) (key : String) :
    (c.getStale now key).2 = c := by
  unfold SQLiteCache.getStale
  by_cases h : c.enabled = false
  · simp [h]
  · simp only [if_neg h]
    cases c.rows.find? (fun r => r.key = key) <;> rfl

theorem iterGetStale_eq (c : SQLiteCache α) (now : Int) (key : String) :
    ∀ n, c.iterGetStale now key n = c := by
  intro n
  induction n with
  | zero => rfl
  | succ n ih => rw [SQLiteCache.iterGetStale, ih, getStale_snd]

/-- `set` on an enabled cache: delete the conflicting row, append the new one. -/
theorem set_enabled (c : SQLiteCache α) (now : Int) (key : String) (v : α)
    (s : String) (ttl : Option Int) (h : c.enabled = true) :
    c.set now key v s ttl =
      { c with rows := c.rows.filter (fun r => ¬(r.key = key)) ++
          [{ key := key, value := v, source := s, created_at := now,
             expires_at := now + ttl.getD c.defaultTTLHours * 60 * 60 * 1000,
             hit_count := 0 }] } := by
  unfold SQLiteCache.set
  rw [h]
  rfl

/-- A freshly `set` row has a stored hit count of 0. -/
theorem hitCountOf_set (c : SQLiteCache α) (now : Int) (key : String) (v : α)
    (s : String) (ttl : Option Int) (h : c.enabled = true) :
    (c.set now key v s ttl).hitCountOf key = some 0 := by
  rw [set_enabled c now key v s ttl h]
  unfold SQLiteCache.hitCountOf
  rw [find?_append_left_none _ _ _
    (find?_filter_not _ _ (fun x hx => by simpa using hx) c.rows)]
  rw [List.find?_cons_of_pos _ (by simp)]
  rfl

/-- `find?` by key commutes with the hit-count bump map of `get` (the bump
preserves keys). -/
theorem find?_map_bump (key : String) :
    ∀ rows : List (CacheEntry α),
      ((rows.map (fun r => if r.key = key then { r with hit_count := r.hit_count + 1 }
          else r)).find? (fun r => r.key = key)) =
      (rows.find? (fun r => r.key = key)).map
        (fun r => if r.key = key then { r with hit_count := r.hit_count + 1 } else r) := by
  intro rows
  induction rows with
  | nil => rfl
  | cons x rest ih =>
    by_cases hx : x.key = key
    · rw [List.map_cons, if_pos hx,
        List.find?_cons_of_pos _ (by simp [hx]),
        List.find?_cons_of_pos _ (by simp [hx])]
      simp [hx]
    · rw [List.map_cons, if_neg hx,
        List.find?_cons_of_neg _ (by simp [hx]),
        List.find?_cons_of_neg _ (by simp [hx]), ih]

theorem firstAvail_eq_firstSome (f : PartialBookData → Option α) :
    ∀ l : List PartialBookData, firstAvail f l = firstSome (l.map f) := by
  intro l
  induction l with
  | nil => rfl
  | cons r rest ih =>
    simp only [firstAvail, List.map_cons, firstSome]
    cases f r
    · simpa [Option.orElse] using ih
    · simp [Option.orElse]

theorem prefLoop_eq_firstSome (results : List PartialBookData)
    (f : PartialBookData → Option α) :
    ∀ prefs : List BookSource,
      prefLoop results f prefs =
        firstSome (prefs.map (fun s => (results.find? (fun r => r.source = s)).bind f)) := by
  intro prefs
  induction prefs with
  | nil => rfl
  | cons s rest ih =>
    simp only [prefLoop, List.map_cons, firstSome]
    cases hfind : results.find? (fun r => r.source = s) with
    | none => simpa [Option.orElse] using ih
    | some r =>
      cases hfr : f r with
      | none => simpa [hfr, Option.orElse] using ih
      | some v => simp [hfr, Option.orElse]

/-- The two loops of `selectBestValue` compose to the spec-worded selection. -/
theorem selectBestValue_eq_spec (results : List PartialBookData) (fld : MergeField)
    (f : PartialBookData → Option α) :
    selectBestValue results fld f =
      specFieldValue results (FIELD_SOURCE_PREFERENCE fld) f := by
  unfold selectBestValue specFieldValue
  rw [prefLoop_eq_firstSome, firstAvail_eq_firstSome]

theorem firstSome_none (l : List (Option α)) (h : firstSome l = none) :
    ∀ o ∈ l, o = none := by
  induction l with
  | nil => simp
  | cons o rest ih =>
    simp only [firstSome] at h
    have ho : o = none := by
      cases hoo : o
      · rfl
      · rw [hoo] at h; simp [Option.orElse] at h
    rw [ho] at h
    simp only [Option.orElse] at h
    intro x hx
    rcases List.mem_cons.mp hx with hx | hx
    · exact hx.trans ho
    · exact ih h x hx

theorem mem_insertByPriority (a x : PartialBookData) :
    ∀ l, x ∈ insertByPriority a l → x = a ∨ x ∈ l := by
  intro l
  induction l with
  | nil => simp [insertByPriority]
  | cons b rest ih =>
    simp only [insertByPriority]
    by_cases hp : SOURCE_PRIORITY a.source ≥ SOURCE_PRIORITY b.source
    · rw [if_pos hp]
      intro hx
      rcases List.mem_cons.mp hx with h | h
      · exact Or.inl h
      · exact Or.inr h
    · rw [if_neg hp]
      intro hx
      rcases List.mem_cons.mp hx with h | h
      · exact Or.inr (List.mem_cons.mpr (Or.inl h))
      · rcases ih h with h' | h'
        · exact Or.inl h'
        · exact Or.inr (List.mem_cons.mpr (Or.inr h'))

theorem sortByPriority_mem (x : PartialBookData) :
    ∀ l, x ∈ sortByPriority l → x ∈ l := by
  intro l
  induction l with
  | nil => simp [sortByPriority]
  | cons a rest ih =>
    intro hx
    rcases mem_insertByPriority a x (sortByPriority rest) hx with h | h
    · exact h ▸ List.mem_cons_self a rest
    · exact List.mem_cons.mpr (Or.inr (ih h))

/-- The defaulted `selectBestValue` of a string field coincides with the
spec-worded field default when the primary record is one of the inputs. -/
theorem selectBestValue_getD_default (rs : List PartialBookData) (fld : MergeField)
    (f : PartialBookData → Option String) (primary : PartialBookData)
    (hmem : primary ∈ rs) (d : String) :
    (selectBestValue rs fld f).getD (jsOrStr (f primary) d) =
      (specFieldValue rs (FIELD_SOURCE_PREFERENCE fld) f).getD d := by
  rw [selectBestValue_eq_spec]
  cases hv : specFieldValue rs (FIELD_SOURCE_PREFERENCE fld) f with
  | some v => rfl
  | none =>
    simp only [Option.getD_none]
    unfold specFieldValue at hv
    have h2 : firstSome (rs.map f) = none := by
      cases h1 : firstSome ((FIELD_SOURCE_PREFERENCE fld).map
          (fun s => (rs.find? (fun r => r.source = s)).bind f)) with
      | some v => rw [h1] at hv; simp [Option.orElse] at hv
      | none => rw [h1] at hv; simpa [Option.orElse] using hv
    have hall : ∀ r ∈ rs, f r = none := by
      intro r hr
      exact firstSome_none _ h2 (f r) (List.mem_map.mpr ⟨r, hr, rfl⟩)
    rw [hall primary hmem]
    rfl

theorem firstTruthyCover_ne_empty : ∀ l, firstTruthyCover l ≠ some "" := by
  intro l
  induction l with
  | nil => simp [firstTruthyCover]
  | cons r rest ih =>
    simp only [firstTruthyCover]
    cases hc : r.cover_url with
    | none => simpa [truthyStr] using ih
    | some s =>
      by_cases hs : s = ""
      · simpa [truthyStr, hs] using ih
      · simp [truthyStr, hs]

/-- A truthy option is not the empty string. -/
theorem truthyStr_ne_empty (o : Option String) (h : truthyStr o = true) : o ≠ some "" := by
  cases o with
  | none => simp
  | some s => simpa [truthyStr] using h

/-- The merged cover URL is never the (JS-falsy) empty string. -/
theorem selectBestCover_ne_empty (l : List PartialBookData) :
    selectBestCover l ≠ some "" := by
  unfold selectBestCover
  cases l.find? (fun r => r.source = BookSource.open_library) with
  | some r =>
    by_cases hr : truthyStr r.cover_url
    · simpa [hr] using truthyStr_ne_empty _ hr
    · simp only [hr, if_neg, Bool.false_eq_true, if_false]
      cases l.find? (fun r => r.source = BookSource.google_books) with
      | some g =>
        by_cases hg : truthyStr g.cover_url
        · simpa [hg] using truthyStr_ne_empty _ hg
        · simpa [hg] using firstTruthyCover_ne_empty l
      | none => exact firstTruthyCover_ne_empty l
  | none =>
    cases l.find? (fun r => r.source = BookSource.google_books) with
    | some g =>
      by_cases hg : truthyStr g.cover_url
      · simpa [hg] using truthyStr_ne_empty _ hg
      · simpa [hg] using firstTruthyCover_ne_empty l
    | none => exact firstTruthyCover_ne_empty l

theorem longestDesc_ne_empty :
    ∀ (l : List PartialBookData) (best : Option String) (n : Nat),
      best ≠ some "" → (longestDesc l (best, n)).1 ≠ some "" := by
  intro l
  induction l with
  | nil => intro best n h; simpa [longestDesc] using h
  | cons r rest ih =>
    intro best n h
    simp only [longestDesc]
    cases hd : r.description with
    | none => exact ih best n h
    | some d =>
      show (if d ≠ "" ∧ d.length > n then longestDesc rest (some d, d.length)
        else longestDesc rest (best, n)).1 ≠ some ""
      by_cases hcond : d ≠ "" ∧ d.length > n
      · rw [if_pos hcond]
        exact ih (some d) d.length (by simpa using hcond.1)
      · rw [if_neg hcond]
        exact ih best n h

/-- The merged description is never the empty string. -/
theorem selectLongestDescription_ne_empty (l : List PartialBookData) :
    selectLongestDescription l ≠ some "" := by
  unfold selectLongestDescription
  cases l.find? (fun r => r.source = BookSource.google_books) with
  | some r =>
    show (match (match r.description with
        | some d => if d ≠ "" ∧ d.length > 100 then some d else none
        | none => none) with
      | some d => some d
      | none => (longestDesc l (none, 0)).1) ≠ some ""
    cases hd : r.description with
    | none => exact longestDesc_ne_empty l none 0 (by simp)
    | some d =>
      show (match (if d ≠ "" ∧ d.length > 100 then some d else none) with
        | some d => some d
        | none => (longestDesc l (none, 0)).1) ≠ some ""
      by_cases hcond : d ≠ "" ∧ d.length > 100
      · rw [if_pos hcond]
        simpa using hcond.1
      · rw [if_neg hcond]
        exact longestDesc_ne_empty l none 0 (by simp)
  | none => exact longestDesc_ne_empty l none 0 (by simp)

theorem firstSeries_truthy :
    ∀ l : List PartialBookData, ∀ ps, firstSeries l = some ps → truthyStr ps.name = true := by
  intro l
  induction l with
  | nil => intro ps h; simp [firstSeries] at h
  | cons r rest ih =>
    intro ps h
    simp only [firstSeries] at h
    by_cases hr : truthySeriesName r.series
    · rw [if_pos hr] at h
      cases hs : r.series with
      | none => rw [hs] at hr; simp [truthySeriesName] at hr
      | some prs =>
        rw [hs] at h hr
        cases h
        simpa [truthySeriesName] using hr
    · rw [if_neg hr] at h
      exact ih ps h

/-- The merged series name is never the empty string. -/
theorem mergeSeries_name_ne_empty (l : List PartialBookData) :
    (mergeSeries l).name ≠ some "" := by
  have hpick : ∀ pick : Option PartialSeries,
      (∀ ps, pick = some ps → truthyStr ps.name = true) →
      (match pick with
        | some ps => (⟨ps.name, ps.position, ps.total_books⟩ : BookSeries)
        | none => (⟨none, none, none⟩ : BookSeries)).name ≠
        some "" := by
    intro pick hp
    cases hpk : pick with
    | none => simp
    | some ps => simpa using truthyStr_ne_empty ps.name (hp ps hpk)
  unfold mergeSeries
  cases hf : l.find? (fun r => r.source = BookSource.goodreads) with
  | some gr =>
    show (match (if truthySeriesName gr.series then gr.series else firstSeries l) with
      | some ps => (⟨ps.name, ps.position, ps.total_books⟩ : BookSeries)
      | none => (⟨none, none, none⟩ : BookSeries)).name ≠ some ""
    apply hpick
    intro ps hps
    by_cases hgr : truthySeriesName gr.series
    · rw [if_pos hgr] at hps
      cases hs : gr.series with
      | none => rw [hs] at hps; cases hps
      | some prs =>
        rw [hs] at hps hgr
        cases hps
        simpa [truthySeriesName] using hgr
    · rw [if_neg hgr] at hps
      exact firstSeries_truthy l ps hps
  | none =>
    show (match firstSeries l with
      | some ps => (⟨ps.name, ps.position, ps.total_books⟩ : BookSeries)
      | none => (⟨none, none, none⟩ : BookSeries)).name ≠ some ""
    exact hpick _ (firstSeries_truthy l)

/-- On records whose cover, description and series name are never the JS-falsy
empty string, the code's truthiness-based confidence equals the spec-worded
tier of the amended score. -/
theorem calculateConfidence_eq_specTier (m : BookResult) (n f : Nat)
    (hcov : m.cover_url ≠ some "") (hdesc : m.description ≠ some "")
    (hser : m.series.name ≠ some "") :
    calculateConfidence m n f = specTier (specScoreAmended m n f) := by
  have e1 : (if truthyStr m.cover_url then (5 : Int) else 0) =
      (if m.cover_url.isSome then 5 else 0) := by
    cases hc : m.cover_url with
    | none => simp [truthyStr]
    | some s =>
      have hs : s ≠ "" := fun e => hcov (by rw [hc, e])
      simp [truthyStr, hs]
  have e2 : (if truthyStr m.description then (10 : Int) else 0) =
      (if m.description.isSome then 10 else 0) := by
    cases hc : m.description with
    | none => simp [truthyStr]
    | some s =>
      have hs : s ≠ "" := fun e => hdesc (by rw [hc, e])
      simp [truthyStr, hs]
  have e3 : (if truthyStr m.series.name then (10 : Int) else 0) =
      (if m.series.name.isSome then 10 else 0) := by
    cases hc : m.series.name with
    | none => simp [truthyStr]
    | some s =>
      have hs : s ≠ "" := fun e => hser (by rw [hc, e])
      simp [truthyStr, hs]
  have e4 : (if m.genres.length > 0 then (5 : Int) else 0) =
      (if m.genres ≠ [] then 5 else 0) := by
    cases m.genres <;> simp
  unfold calculateConfidence specTier specScoreAmended
  rw [e1, e2, e3, e4]

theorem searchStep_not_run (req : List BookSource) (av : Bool) (s : BookSource)
    (o : BookSource → SearchOutcome) (st : FanOutState)
    (h : ¬(req.contains s = true ∧ av = true)) :
    searchStep req av s o st = st := by
  unfold searchStep
  rw [if_neg h]

theorem searchStep_queried_mono (req : List BookSource) (av : Bool) (s : BookSource)
    (o : BookSource → SearchOutcome) (st : FanOutState) (s' : BookSource)
    (h : s' ∈ st.sourcesQueried) :
    s' ∈ (searchStep req av s o st).sourcesQueried := by
  unfold searchStep
  by_cases hc : req.contains s = true ∧ av = true
  · rw [if_pos hc]
    cases o s <;> exact List.mem_append_left _ h
  · rw [if_neg hc]
    exact h

theorem searchStep_self_queried (req : List BookSource) (av : Bool) (s : BookSource)
    (o : BookSource → SearchOutcome) (st : FanOutState)
    (hreq : req.contains s = true) (hav : av = true) :
    s ∈ (searchStep req av s o st).sourcesQueried := by
  unfold searchStep
  rw [if_pos ⟨hreq, hav⟩]
  cases o s <;> simp

theorem searchStep_results_stable (req : List BookSource) (av : Bool) (s : BookSource)
    (o : BookSource → SearchOutcome) (st : FanOutState)
    (h : ∀ r, o s ≠ .found r) :
    (searchStep req av s o st).results = st.results := by
  unfold searchStep
  by_cases hc : req.contains s = true ∧ av = true
  · rw [if_pos hc]
    cases ho : o s with
    | found r => exact absurd ho (h r)
    | noMatch => rfl
    | errored => rfl
  · rw [if_neg hc]

theorem mapIdxFrom_length (f : α → Nat → β) :
    ∀ (l : List α) (start : Nat), (mapIdxFrom f start l).length = l.length := by
  intro l
  induction l with
  | nil => intro start; rfl
  | cons x xs ih => intro start; simp [mapIdxFrom, ih]

theorem mapIdxFrom_getElem? (f : α → Nat → β) :
    ∀ (l : List α) (start j : Nat),
      (mapIdxFrom f start l)[j]? = (l[j]?).map (fun x => f x (start + j)) := by
  intro l
  induction l with
  | nil => intro start j; simp [mapIdxFrom]
  | cons x xs ih =>
    intro start j
    cases j with
    | zero => simp [mapIdxFrom]
    | succ j =>
      simp only [mapIdxFrom, List.getElem?_cons_succ]
      rw [ih (start + 1) j]
      have : start + 1 + j = start + (j + 1) := by omega
      rw [this]

theorem mapIdxFrom_append (f : α → Nat → β) :
    ∀ (l1 l2 : List α) (start : Nat),
      mapIdxFrom f start (l1 ++ l2) =
        mapIdxFrom f start l1 ++ mapIdxFrom f (start + l1.length) l2 := by
  intro l1
  induction l1 with
  | nil => intro l2 start; simp [mapIdxFrom]
  | cons x xs ih =>
    intro l2 start
    have h1 : start + (xs.length + 1) = start + 1 + xs.length := by omega
    simp only [List.cons_append, mapIdxFrom, List.length_cons, List.append_eq, h1,
      ih l2 (start + 1)]

/-- With enough fuel and positive concurrency, the wave loop is the plain
indexed map. -/
theorem processChunks_eq_mapIdxFrom (f : α → Nat → β) (c : Nat) (hc : 1 ≤ c) :
    ∀ (fuel : Nat) (l : List α) (start : Nat), l.length ≤ fuel →
      processChunks f c fuel start l = mapIdxFrom f start l := by
  intro fuel
  induction fuel with
  | zero =>
    intro l start h
    have : l = [] := List.eq_nil_of_length_eq_zero (Nat.le_zero.mp h)
    subst this
    rfl
  | succ fuel ih =>
    intro l start h
    cases l with
    | nil => rfl
    | cons x xs =>
      have hlc : (x :: xs).length = xs.length + 1 := by simp
      simp only [processChunks]
      by_cases hcl : c ≤ xs.length + 1
      · rw [ih ((x :: xs).drop c) (start + c)
          (by simp only [List.length_drop, List.length_cons] at h ⊢; omega)]
        have hlen : ((x :: xs).take c).length = c := by
          rw [List.length_take, hlc]
          omega
        rw [show start + c = start + ((x :: xs).take c).length by rw [hlen]]
        rw [← mapIdxFrom_append, List.take_append_drop]
      · have hd : (x :: xs).drop c = [] := List.drop_eq_nil_of_le (by omega)
        have ht : (x :: xs).take c = x :: xs := List.take_of_length_le (by omega)
        rw [hd, ht]
        cases fuel <;> simp [processChunks, mapIdxFrom]

theorem chunksOf_length (c : Nat) (hc : 1 ≤ c) :
    ∀ (fuel : Nat) (l : List α), l.length ≤ fuel →
      (chunksOf c fuel l).length = (l.length + c - 1) / c := by
  intro fuel
  induction fuel with
  | zero =>
    intro l h
    have : l = [] := List.eq_nil_of_length_eq_zero (Nat.le_zero.mp h)
    subst this
    simp [chunksOf, Nat.div_eq_of_lt (by omega : c - 1 < c)]
  | succ fuel ih =>
    intro l h
    cases l with
    | nil => simp [chunksOf, Nat.div_eq_of_lt (by omega : c - 1 < c)]
    | cons x xs =>
      simp only [chunksOf, List.length_cons]
      rw [ih ((x :: xs).drop c)
        (by simp only [List.length_drop, List.length_cons] at h ⊢; omega)]
      simp only [List.length_drop, List.length_cons]
      by_cases hcl : c ≤ xs.length + 1
      · have h1 : xs.length + 1 - c + c - 1 = xs.length := by omega
        have h2 : xs.length + 1 + c - 1 = xs.length + c := by omega
        rw [h1, h2, Nat.add_div_right _ (by omega : 0 < c)]
      · have h0 : xs.length + 1 - c = 0 := by omega
        rw [h0]
        rw [Nat.div_eq_of_lt (by omega : 0 + c - 1 < c)]
        have h3 : xs.length + 1 + c - 1 = xs.length + c := by omega
        rw [h3]
        rw [Nat.div_eq_of_lt_le (by omega : 1 * c ≤ xs.length + c)
          (by omega : xs.length + c < (1 + 1) * c)]

theorem chunksOf_mem_le (c : Nat) :
    ∀ (fuel : Nat) (l : List α) (w : List α), w ∈ chunksOf c fuel l → w.length ≤ c := by
  intro fuel
  induction fuel with
  | zero => intro l w h; simp [chunksOf] at h
  | succ fuel ih =>
    intro l w h
    cases l with
    | nil => simp [chunksOf] at h
    | cons x xs =>
      simp only [chunksOf] at h
      rcases List.mem_cons.mp h with h | h
      · subst h
        simp
      · exact ih _ w h

theorem lookupItem_index (oracles : BatchOracles ρ) (item : BatchItem) (idx : Nat) :
    (lookupItem oracles item idx).index = idx := by
  unfold lookupItem
  cases hm : (match item.type with
    | .book => oracles.book item
    | .movie => oracles.movie item
    | .tv => oracles.tv item) <;> rfl

/-! ## Claims -/

/-- C4: for every pair of strings `a` and `b`, `stringSimilarity(a, b)` equals
1 when the normalized strings are equal; equals 0 when (that failing) either
normalizes to the empty string; and otherwise equals
`1 − levenshteinDistance(normalize(a), normalize(b)) / max(len, len)`. -/
theorem c4_stringSimilarity_formula (a b : String) :
    (normalize a = normalize b → stringSimilarity a b = 1) ∧
    (normalize a ≠ normalize b →
      (normalize a).length = 0 ∨ (normalize b).length = 0 → stringSimilarity a b = 0) ∧
    (normalize a ≠ normalize b → (normalize a).length ≠ 0 → (normalize b).length ≠ 0 →
      stringSimilarity a b =
        1 - (levenshteinDistance (normalize a).data (normalize b).data : ℚ) /
          ((max (normalize a).length (normalize b).length : ℕ) : ℚ)) := by
  unfold stringSimilarity
  refine ⟨fun h => ?_, fun h1 h2 => ?_, fun h1 h2 h3 => ?_⟩
  · rw [if_pos h]
  · rw [if_neg h1, if_pos h2]
  · rw [if_neg h1, if_neg (by push_neg; exact ⟨h2, h3⟩)]

theorem c4_stringSimilarity_formula_witness :
    stringSimilarity "kitten" "sitting" = 4 / 7 := by
  have h := (c4_stringSimilarity_formula "kitten" "sitting").2.2
    (by decide) (by decide) (by decide)
  rw [h]
  rw [show normalize "kitten" = "kitten" from rfl,
      show normalize "sitting" = "sitting" from rfl]
  rw [show levenshteinDistance "kitten".data "sitting".data = 3 from rfl]
  norm_num [show ("kitten".length) = 6 from rfl, show ("sitting".length) = 7 from rfl]

/-- C5: for every configured source and positive attempt `k`, `triggerBackoff`
sets the source's `backoff_until` to `now + min(2^k * 1000, 60000)` and
returns exactly that duration in milliseconds. -/
theorem c5_triggerBackoff_exact (rl : RateLimiter) (now : Nat) (source : String)
    (k : Nat) (st : RateLimitState)
    (hconfigured : mapGet rl.states source = some st) (_hk : 1 ≤ k) :
    (rl.triggerBackoff now source k).1 = min (2 ^ k * 1000) 60000 ∧
    mapGet (rl.triggerBackoff now source k).2.states source =
      some { st with backoffUntil := now + min (2 ^ k * 1000) 60000 } :=
  triggerBackoff_state rl now source k st hconfigured

theorem c5_triggerBackoff_exact_witness :
    (c5Limiter.triggerBackoff 500 "api" 1).1 = 2000 ∧
    (c5Limiter.triggerBackoff 500 "api" 10).1 = 60000 := by
  have h1 := c5_triggerBackoff_exact c5Limiter 500 "api" 1 ⟨0, 0, 0⟩ (by rfl) (by decide)
  have h10 := c5_triggerBackoff_exact c5Limiter 500 "api" 10 ⟨0, 0, 0⟩ (by rfl) (by decide)
  exact ⟨h1.1.trans (by decide), h10.1.trans (by decide)⟩

/-- C6 counterexample: `triggerBackoff` overwrites `backoff_until`
unconditionally, so a second call with a smaller attempt number moves it
backwards (attempt 10 at t=0 sets 60000; attempt 1 at t=1 then sets 2001). -/
theorem c6_counterexample :
    ((mapGet c6RL1.states "api").map (fun st => st.backoffUntil) = some 60000) ∧
    ((mapGet c6RL2.states "api").map (fun st => st.backoffUntil) = some 2001) ∧
    (2001 < 60000) := by decide

/-- C6 (amended): across two consecutive `triggerBackoff` calls on the same
configured source, `backoff_until` is non-decreasing provided the call time
does not decrease and the second attempt number is at least the first; each
call overwrites `backoff_until` with its own `now + min(2^attempt*1000,
60000)`. -/
theorem c6_amended_backoff_monotone (rl : RateLimiter) (source : String)
    (st : RateLimitState) (t1 t2 k1 k2 : Nat)
    (hst : mapGet rl.states source = some st) (ht : t1 ≤ t2) (hk : k1 ≤ k2) :
    ∃ b1 b2,
      (mapGet (rl.triggerBackoff t1 source k1).2.states source).map
        (fun s => s.backoffUntil) = some b1 ∧
      (mapGet ((rl.triggerBackoff t1 source k1).2.triggerBackoff t2 source k2).2.states
        source).map (fun s => s.backoffUntil) = some b2 ∧
      b1 ≤ b2 := by
  have h1 := triggerBackoff_state rl t1 source k1 st hst
  have h2 := triggerBackoff_state (rl.triggerBackoff t1 source k1).2 t2 source k2 _ h1.2
  refine ⟨t1 + min (2 ^ k1 * 1000) 60000, t2 + min (2 ^ k2 * 1000) 60000, ?_, ?_, ?_⟩
  · rw [h1.2]; rfl
  · rw [h2.2]; rfl
  · have hpow : 2 ^ k1 * 1000 ≤ 2 ^ k2 * 1000 :=
      Nat.mul_le_mul_right 1000 (Nat.pow_le_pow_right (by omega) hk)
    exact Nat.add_le_add ht (min_le_min hpow (le_refl 60000))

theorem c6_amended_backoff_monotone_witness :
    ∃ b1 b2,
      (mapGet (c6wRL.triggerBackoff 0 "api" 1).2.states "api").map
        (fun s => s.backoffUntil) = some b1 ∧
      (mapGet ((c6wRL.triggerBackoff 0 "api" 1).2.triggerBackoff 5 "api" 2).2.states
        "api").map (fun s => s.backoffUntil) = some b2 ∧
      b1 ≤ b2 :=
  c6_amended_backoff_monotone c6wRL "api" ⟨0, 0, 0⟩ 0 5 1 2 (by rfl) (by decide) (by decide)

/-- C7 counterexample: a row with `expires_at` exactly equal to `now` is no
longer returned by `get` (which needs `expires_at > now`), yet `cleanup`
(which deletes `expires_at < now`) neither deletes it nor counts it. -/
theorem c7_cleanup_boundary_counterexample :
    ((c7Cache.get 5 "k").1 = none) ∧
    ((c7Cache.cleanup 5).1 = 0) ∧
    ((c7Cache.cleanup 5).2 = c7Cache) := by decide

/-- C7 (amended): on an enabled cache, `cleanup()` deletes exactly the rows
whose `expires_at` is strictly in the past and returns their count, leaving
every row with `expires_at ≥ now` untouched; every `get` observation is
unchanged by `cleanup` (a row with `expires_at = now` is not returned by `get`
yet survives `cleanup`). -/
theorem c7_amended_cleanup_exact {α : Type} (c : SQLiteCache α) (now : Int)
    (h : c.enabled = true) :
    (c.cleanup now).1 = (c.rows.filter (fun r => r.expires_at < now)).length ∧
    (c.cleanup now).2.rows = c.rows.filter (fun r => ¬(r.expires_at < now)) ∧
    (∀ key, ((c.cleanup now).2.get now key).1 = (c.get now key).1) := by
  have hne : ¬(c.enabled = false) := by simp [h]
  unfold SQLiteCache.cleanup
  rw [if_neg hne]
  refine ⟨rfl, rfl, fun key => ?_⟩
  simp only [SQLiteCache.get, h]
  rw [find?_filter_imp _ _ (fun x hx => by
    simp only [decide_eq_true_eq] at hx ⊢
    omega) c.rows]
  cases c.rows.find? (fun r => r.key = key ∧ r.expires_at > now) <;> rfl

theorem c7_amended_cleanup_exact_witness :
    (c7wCache.cleanup 10).1 = 1 ∧
    (c7wCache.cleanup 10).2.rows = [⟨"b", 1, "s", 0, 20, 2⟩] := by
  have h := c7_amended_cleanup_exact c7wCache 10 (by rfl)
  exact ⟨h.1.trans (by decide), h.2.1.trans (by decide)⟩

/-- C10: `getStale` never modifies the cache — in particular it never
increments a stored `hit_count`, so after `set` the stored count stays 0 under
any number of `getStale` calls; only `get` increments it (to 1 on the first
fresh read). -/
theorem c10_getStale_no_write {α : Type} :
    (∀ (c : SQLiteCache α) (now : Int) (key : String), (c.getStale now key).2 = c) ∧
    (∀ (c : SQLiteCache α) (now now2 : Int) (key : String) (v : α) (s : String)
        (ttl : Option Int) (n : Nat), c.enabled = true →
      ((c.set now key v s ttl).iterGetStale now2 key n).hitCountOf key = some 0) ∧
    (∀ (c : SQLiteCache α) (now : Int) (key : String) (v : α) (s : String) (t : Int),
        c.enabled = true → 1 ≤ t →
      ((c.set now key v s (some t)).get now key).2.hitCountOf key = some 1) := by
  refine ⟨getStale_snd, ?_, ?_⟩
  · intro c now now2 key v s ttl n h
    rw [iterGetStale_eq]
    exact hitCountOf_set c now key v s ttl h
  · intro c now key v s t h ht
    have hrow_exp : now < now + t * 60 * 60 * 1000 := by nlinarith
    rw [set_enabled c now key v s (some t) h]
    have hF1 : List.find? (fun r : CacheEntry α =>
          decide (r.key = key) && decide (now < r.expires_at))
        (List.filter (fun r : CacheEntry α => !decide (r.key = key)) c.rows) = none :=
      find?_filter_not _ _
        (fun x hx => by by_cases hk : x.key = key <;> simp [hk] at hx ⊢) c.rows
    have hF2 : List.find? (fun r : CacheEntry α => decide (r.key = key))
        (List.filter (fun r : CacheEntry α => !decide (r.key = key)) c.rows) = none :=
      find?_filter_not _ _
        (fun x hx => by by_cases hk : x.key = key <;> simp [hk] at hx ⊢) c.rows
    simp [SQLiteCache.get, SQLiteCache.hitCountOf, h,
      find?_append_left_none _ _ _ hF1, find?_append_left_none _ _ _ hF2,
      find?_map_bump, hF1, hF2, hrow_exp]
    refine ⟨_, Or.inr ⟨fun x hx hk => ?_, rfl⟩, rfl⟩
    simp [hk]

theorem c10_getStale_no_write_witness :
    ((c10wCache.set 0 "k" 42 "s" (some 1)).iterGetStale 999 "k" 3).hitCountOf "k" = some 0 ∧
    ((c10wCache.set 0 "k" 42 "s" (some 1)).get 0 "k").2.hitCountOf "k" = some 1 := by
  have h := c10_getStale_no_write (α := Nat)
  exact ⟨h.2.1 c10wCache 0 999 "k" 42 "s" (some 1) 3 (by rfl),
         h.2.2 c10wCache 0 "k" 42 "s" 1 (by rfl) (by decide)⟩

/-- C1 counterexample: a single Open Library record with title, author and a
page count of 0 merges to confidence `low` (the JS-falsy page count scores
nothing: 15 + 10 + 10 = 35), while the claim's score — which awards 5 for a
*present* page count — totals 40 and maps to `medium`. -/
theorem c1_counterexample :
    ((mergeBookResults [c1PageRec] [.open_library] [] "").map
        (fun m => m.meta.confidence) = some ConfidenceLevel.low) ∧
    ((mergeBookResults [c1PageRec] [.open_library] [] "").map
        (fun m => specTier (specScoreClaim m 1 0)) = some ConfidenceLevel.medium) ∧
    ConfidenceLevel.low ≠ ConfidenceLevel.medium := by
  refine ⟨by decide, by decide, by decide⟩

/-- C1 (amended): for every non-empty list of partial records, the merged
record's confidence tier equals the tier of the claim's score with presence
read as JS-truthiness on the ISBN bonus (non-null and non-empty) and on the
page-count bonus (non-null and non-zero); all other clauses as the claim
states them. -/
theorem c1_amended_confidence (rs : List PartialBookData) (sq sf : List BookSource)
    (ts : String) (m : BookResult) (hm : mergeBookResults rs sq sf ts = some m) :
    m.meta.confidence = specTier (specScoreAmended m rs.length sf.length) := by
  unfold mergeBookResults at hm
  cases hsort : sortByPriority rs with
  | nil => rw [hsort] at hm; simp at hm
  | cons primary tail =>
    rw [hsort] at hm
    simp only [Option.some.injEq] at hm
    subst hm
    exact calculateConfidence_eq_specTier _ rs.length sf.length
      (selectBestCover_ne_empty rs) (selectLongestDescription_ne_empty rs)
      (mergeSeries_name_ne_empty rs)

theorem c1_amended_confidence_witness :
    ∃ m, mergeBookResults [c1wRec] [.open_library] [] "" = some m ∧
      m.meta.confidence = specTier (specScoreAmended m 1 0) ∧
      m.meta.confidence = ConfidenceLevel.medium := by
  refine ⟨(mergeBookResults [c1wRec] [.open_library] [] "").getD defaultBookResult,
    by rfl, ?_, by decide⟩
  exact c1_amended_confidence [c1wRec] [.open_library] [] "" _ (by rfl)

/-- C2: each preference-merged scalar field of the merged record is the first
non-null value along the field's source-preference list, else the value of the
first contributing record that has the field, else the field's default
(empty string for the title, "Unknown" for the author, null otherwise). -/
theorem c2_field_selection (rs : List PartialBookData) (sq sf : List BookSource)
    (ts : String) (m : BookResult) (hm : mergeBookResults rs sq sf ts = some m) :
    m.title = (specFieldValue rs (FIELD_SOURCE_PREFERENCE .title)
      (fun r => r.title)).getD "" ∧
    m.author = (specFieldValue rs (FIELD_SOURCE_PREFERENCE .author)
      (fun r => r.author)).getD "Unknown" ∧
    m.isbn_10 = specFieldValue rs (FIELD_SOURCE_PREFERENCE .isbn_10)
      (fun r => r.isbn_10) ∧
    m.isbn_13 = specFieldValue rs (FIELD_SOURCE_PREFERENCE .isbn_13)
      (fun r => r.isbn_13) ∧
    m.page_count = specFieldValue rs (FIELD_SOURCE_PREFERENCE .page_count)
      (fun r => r.page_count) ∧
    m.publish_date = specFieldValue rs (FIELD_SOURCE_PREFERENCE .publish_date)
      (fun r => r.publish_date) ∧
    m.publisher = specFieldValue rs (FIELD_SOURCE_PREFERENCE .publisher)
      (fun r => r.publisher) := by
  unfold mergeBookResults at hm
  cases hsort : sortByPriority rs with
  | nil => rw [hsort] at hm; simp at hm
  | cons primary tail =>
    rw [hsort] at hm
    simp only [Option.some.injEq] at hm
    subst hm
    have hmem : primary ∈ rs :=
      sortByPriority_mem primary rs
        (by rw [hsort]; exact List.mem_cons_self primary tail)
    exact ⟨selectBestValue_getD_default rs .title (fun r => r.title) primary hmem "",
      selectBestValue_getD_default rs .author (fun r => r.author) primary hmem "Unknown",
      selectBestValue_eq_spec rs .isbn_10 _,
      selectBestValue_eq_spec rs .isbn_13 _,
      selectBestValue_eq_spec rs .page_count _,
      selectBestValue_eq_spec rs .publish_date _,
      selectBestValue_eq_spec rs .publisher _⟩

theorem c2_field_selection_witness :
    ∃ m, mergeBookResults [c2RecOL, c2RecGB] [.open_library, .google_books] [] ""
        = some m ∧
      m.page_count = specFieldValue [c2RecOL, c2RecGB]
        (FIELD_SOURCE_PREFERENCE .page_count) (fun r => r.page_count) ∧
      m.page_count = some 412 ∧ m.isbn_10 = some "0441013597" := by
  refine ⟨(mergeBookResults [c2RecOL, c2RecGB] [.open_library, .google_books] []
    "").getD defaultBookResult, by rfl, ?_, by decide, by decide⟩
  exact (c2_field_selection [c2RecOL, c2RecGB] [.open_library, .google_books] [] ""
    _ (by rfl)).2.2.2.2.1

/-- C9 counterexample: two merges whose inputs differ only in the hardcover
record's source URL produce identical source-URL maps — the canonical record
has no hardcover source-URL entry, contradicting a map "keyed by every known
source". -/
theorem c9_counterexample :
    (c9HcRec "https://hardcover.app/u1").source_url ≠
      (c9HcRec "https://hardcover.app/u2").source_url ∧
    ((mergeBookResults c9L1 [.open_library] [] "").map (fun m => m.source_urls) =
      (mergeBookResults c9L2 [.open_library] [] "").map (fun m => m.source_urls)) := by
  refine ⟨by decide, by decide⟩

/-- C9 (amended): the merged identifiers map is keyed by all four known
sources, while the source-URL map is keyed by open_library, goodreads and
google_books only (there is no hardcover entry); each entry is collected from
that source's contributing record — null when that source contributed none —
never selected through a preference list. -/
theorem c9_amended_collection (rs : List PartialBookData) (sq sf : List BookSource)
    (ts : String) (m : BookResult) (hm : mergeBookResults rs sq sf ts = some m) :
    m.identifiers.open_library = specCollected rs .open_library (fun r => r.identifier) ∧
    m.identifiers.goodreads = specCollected rs .goodreads (fun r => r.identifier) ∧
    m.identifiers.google_books = specCollected rs .google_books (fun r => r.identifier) ∧
    m.identifiers.hardcover = specCollected rs .hardcover (fun r => r.identifier) ∧
    m.source_urls.open_library = specCollected rs .open_library (fun r => r.source_url) ∧
    m.source_urls.goodreads = specCollected rs .goodreads (fun r => r.source_url) ∧
    m.source_urls.google_books = specCollected rs .google_books (fun r => r.source_url) := by
  unfold mergeBookResults at hm
  cases hsort : sortByPriority rs with
  | nil => rw [hsort] at hm; simp at hm
  | cons primary tail =>
    rw [hsort] at hm
    simp only [Option.some.injEq] at hm
    subst hm
    have hcol : ∀ (s : BookSource) (f : PartialBookData → Option String),
        (rs.find? (fun r => r.source = s)).bind f = specCollected rs s f := by
      intro s f
      unfold specCollected
      cases rs.find? (fun r => r.source = s) <;> rfl
    exact ⟨hcol _ _, hcol _ _, hcol _ _, hcol _ _, hcol _ _, hcol _ _, hcol _ _⟩

theorem c9_amended_collection_witness :
    ∃ m, mergeBookResults c9wList [.open_library, .goodreads] [] "" = some m ∧
      m.identifiers.goodreads = specCollected c9wList .goodreads (fun r => r.identifier) ∧
      m.identifiers.goodreads = some "GR9" ∧
      m.source_urls.goodreads = some "https://goodreads.com/book/9" := by
  refine ⟨(mergeBookResults c9wList [.open_library, .goodreads] [] "").getD
    defaultBookResult, by rfl, ?_, by decide, by decide⟩
  exact (c9_amended_collection c9wList [.open_library, .goodreads] [] ""
    _ (by rfl)).2.1

/-- C3: when every queried source fails to produce a partial record (zero
successes), the book lookup throws the NOT_FOUND error with
`retryable = false` and never returns a canonical record. -/
theorem c3_zero_successes_not_found (inp : LookupBookInput) (hg ge : Bool)
    (outcome : BookSource → SearchOutcome) (ts : String)
    (h : ∀ s ∈ (fanOut inp hg ge outcome).sourcesQueried, ∀ r, outcome s ≠ .found r) :
    lookupBookExecute inp hg ge outcome ts = .error (notFoundError inp) ∧
    (notFoundError inp).code = "NOT_FOUND" ∧
    (notFoundError inp).retryable = false ∧
    (∀ b, lookupBookExecute inp hg ge outcome ts ≠ .ok b) := by
  have hres : (fanOut inp hg ge outcome).results = [] := by
    simp only [fanOut] at h ⊢
    set req := inp.sources.getD [BookSource.open_library, BookSource.google_books,
      BookSource.goodreads] with hreq
    set st1 := searchStep req true BookSource.open_library outcome {} with hst1
    set st2 := searchStep req hg BookSource.google_books outcome st1 with hst2
    have hmem2 : ∀ s', s' ∈ st2.sourcesQueried →
        s' ∈ (searchStep req ge BookSource.goodreads outcome st2).sourcesQueried :=
      fun s' hs => searchStep_queried_mono _ _ _ _ _ _ hs
    have hmem1 : ∀ s', s' ∈ st1.sourcesQueried →
        s' ∈ (searchStep req ge BookSource.goodreads outcome st2).sourcesQueried := by
      intro s' hs
      apply hmem2
      rw [hst2]
      exact searchStep_queried_mono _ _ _ _ _ _ hs
    have h1 : st1.results = [] := by
      rw [hst1]
      by_cases hc : req.contains BookSource.open_library = true ∧ (true : Bool) = true
      · rw [searchStep_results_stable _ _ _ _ _ (fun r =>
          h BookSource.open_library (hmem1 _ (by
            rw [hst1]
            exact searchStep_self_queried _ _ _ _ _ hc.1 hc.2)) r)]
      · rw [searchStep_not_run _ _ _ _ _ hc]
    have h2 : st2.results = [] := by
      rw [hst2]
      by_cases hc : req.contains BookSource.google_books = true ∧ hg = true
      · rw [searchStep_results_stable _ _ _ _ _ (fun r =>
          h BookSource.google_books (hmem2 _ (by
            rw [hst2]
            exact searchStep_self_queried _ _ _ _ _ hc.1 hc.2)) r)]
        exact h1
      · rw [searchStep_not_run _ _ _ _ _ hc]
        exact h1
    by_cases hc : req.contains BookSource.goodreads = true ∧ ge = true
    · rw [searchStep_results_stable _ _ _ _ _ (fun r =>
        h BookSource.goodreads (searchStep_self_queried _ _ _ _ _ hc.1 hc.2) r)]
      exact h2
    · rw [searchStep_not_run _ _ _ _ _ hc]
      exact h2
  have heq : lookupBookExecute inp hg ge outcome ts = .error (notFoundError inp) := by
    simp only [lookupBookExecute, hres]
  refine ⟨heq, rfl, rfl, fun b hb => ?_⟩
  rw [heq] at hb
  exact Except.noConfusion hb

theorem c3_zero_successes_not_found_witness :
    lookupBookExecute c3Inp true true (fun _ => SearchOutcome.noMatch) "" =
      .error (notFoundError c3Inp) ∧
    (notFoundError c3Inp).code = "NOT_FOUND" ∧
    (notFoundError c3Inp).retryable = false ∧
    (notFoundError c3Inp).message = "No book found matching \"Missing Book\" by Nobody" := by
  have h := c3_zero_successes_not_found c3Inp true true (fun _ => .noMatch) ""
    (fun s _ r hr => SearchOutcome.noConfusion hr)
  exact ⟨h.1, h.2.1, h.2.2.1, by decide⟩

/-- C8: a batch of n items with concurrency c runs in `ceil(n/c)` sequential
waves of at most c lookups each, no item's failure aborts the batch, and the
output has exactly n entries, the j-th tagged with input index j. -/
theorem c8_batch_waves {ρ : Type} (oracles : BatchOracles ρ) (items : List BatchItem)
    (c : Nat) (_hn1 : 1 ≤ items.length) (_hn2 : items.length ≤ 50)
    (hc1 : 1 ≤ c) (_hc2 : c ≤ 10) :
    (batchExecute oracles items c).results.length = items.length ∧
    (∀ j, j < items.length →
      ((batchExecute oracles items c).results[j]?).map BatchResultEntry.index = some j) ∧
    (batchExecute oracles items c).total = items.length ∧
    (wavesOf c items).length = (items.length + c - 1) / c ∧
    (∀ w ∈ wavesOf c items, w.length ≤ c) := by
  have hflat : processChunks (lookupItem oracles) c items.length 0 items =
      mapIdxFrom (lookupItem oracles) 0 items :=
    processChunks_eq_mapIdxFrom _ c hc1 items.length items 0 (le_refl _)
  refine ⟨?_, ?_, rfl, chunksOf_length c hc1 items.length items (le_refl _),
    fun w hw => chunksOf_mem_le c items.length items w hw⟩
  · show (processChunks (lookupItem oracles) c items.length 0 items).length = _
    rw [hflat, mapIdxFrom_length]
  · intro j hj
    show ((processChunks (lookupItem oracles) c items.length 0 items)[j]?).map _ = _
    rw [hflat, mapIdxFrom_getElem?, List.getElem?_eq_getElem hj]
    simp [lookupItem_index]

theorem c8_batch_waves_witness :
    (batchExecute c8Oracles c8Items 2).results.length = 5 ∧
    ((batchExecute c8Oracles c8Items 2).results[1]?).map BatchResultEntry.index = some 1 ∧
    (wavesOf 2 c8Items).length = 3 ∧
    (batchExecute c8Oracles c8Items 2).successful = 4 ∧
    (batchExecute c8Oracles c8Items 2).failed = 1 := by
  have h := c8_batch_waves c8Oracles c8Items 2 (by decide) (by decide) (by decide)
    (by decide)
  exact ⟨h.1.trans (by decide), h.2.1 1 (by decide),
    (h.2.2.2.1).trans (by decide), by decide, by decide⟩

end Media
